import Mathlib

/-!
Verification development for the BuLi data-fetching scripts.

The definitions below are a shallow embedding of the resolution logic of
scripts/openligadb_fetch.py and scripts/sportmonks_fetch.py.  Pure Python
functions become Lean functions; the HTTP layer is passed in explicitly as
data (a list of records, or a function from request parameters to a
response), and raised exceptions become Except values.  Python strings are
modelled as Lean strings, with string scanning carried out on character
lists so that every definition is executable.
-/

namespace BuLi

/-! ### Year extraction (openligadb_fetch.py, lines 40-52) -/

/-- Numeric value of a list of decimal digit characters, most significant
first. -/
def digitsToNat (ds : List Char) : Nat :=
  ds.foldl (fun acc c => acc * 10 + (c.toNat - '0'.toNat)) 0

/-- Every underscore in the list is directly followed by a decimal digit, and
the list does not end in an underscore.  Combined with a digit first
character and a digits-or-underscores alphabet this captures the grammar of
an unsigned token accepted by the Python int constructor. -/
def underscoresBetweenDigits : List Char → Bool
  | [] => true
  | ['_'] => false
  | '_' :: d :: rest => d.isDigit && underscoresBetweenDigits (d :: rest)
  | _ :: rest => underscoresBetweenDigits rest

/-- Value of an unsigned integer token in the sense of the Python int
constructor: a nonempty group of decimal digits, possibly with underscores
strictly between digits.  Unicode digit classes beyond the ASCII decimal
digits are not modelled. -/
def pyUnsignedDigits (cs : List Char) : Option Nat :=
  match cs with
  | [] => none
  | c :: _ =>
    if c.isDigit && cs.all (fun d => d.isDigit || d == '_')
        && underscoresBetweenDigits cs then
      some (digitsToNat (cs.filter (fun d => d != '_')))
    else none

/-- Model of the Python int constructor applied to a whitespace-free token:
an optional single sign followed by an unsigned digit group. -/
def pyToInt : List Char → Option Int
  | '-' :: rest => (pyUnsignedDigits rest).map (fun n => -(n : Int))
  | '+' :: rest => (pyUnsignedDigits rest).map (fun n => (n : Int))
  | cs => (pyUnsignedDigits cs).map (fun n => (n : Int))

/-- Replace every slash by a space, mirroring the replace call of the
source. -/
def slashToSpace (c : Char) : Char := if c = '/' then ' ' else c

/-- Helper for splitTokens: returns the token currently being built from the
front of the list together with the completed tokens after it. -/
def splitTokensAux : List Char → List Char × List (List Char)
  | [] => ([], [])
  | c :: cs =>
    let r := splitTokensAux cs
    if c.isWhitespace then
      ([], if r.1 = [] then r.2 else r.1 :: r.2)
    else
      (c :: r.1, r.2)

/-- Split a character list into maximal runs of non-whitespace characters,
mirroring the no-argument split of a Python string. -/
def splitTokens (cs : List Char) : List (List Char) :=
  let r := splitTokensAux cs
  if r.1 = [] then r.2 else r.1 :: r.2

/-- First token value lying strictly between 1900 and 2100.  Tokens that do
not parse as integers are skipped, and so are parsed tokens out of range,
exactly as in the source loop. -/
def firstYearInRange : List (List Char) → Option Int
  | [] => none
  | t :: rest =>
    match pyToInt t with
    | none => firstYearInRange rest
    | some y => if 1900 < y ∧ y < 2100 then some y else firstYearInRange rest

/-- Model of extract_year (openligadb_fetch.py, lines 40-52).  A missing raw
season label maps to none; otherwise the label is split on slashes and
whitespace and the first integer token strictly between 1900 and 2100 wins.
The source coerces arbitrary values with str before scanning; the model
takes the resulting string directly. -/
def extractYear : Option String → Option Int
  | none => none
  | some s => firstYearInRange (splitTokens (s.toList.map slashToSpace))

/-- Restatement of the year extraction contract in the words of the spec:
the value of the first token that parses as an integer strictly between 1900
and 2100, if any token qualifies, and none otherwise. -/
def specFirstYear (s : String) : Option Int :=
  ((splitTokens (s.toList.map slashToSpace)).filterMap
    (fun t =>
      match pyToInt t with
      | some y => if 1900 < y ∧ y < 2100 then some y else none
      | none => none)).head?

theorem firstYearInRange_eq_filterMap (l : List (List Char)) :
    firstYearInRange l =
      (l.filterMap
        (fun t =>
          match pyToInt t with
          | some y => if 1900 < y ∧ y < 2100 then some y else none
          | none => none)).head? := by
  induction l with
  | nil => rfl
  | cons t rest ih =>
    simp only [firstYearInRange, List.filterMap_cons]
    cases h : pyToInt t with
    | none => simpa using ih
    | some y =>
      by_cases hy : 1900 < y ∧ y < 2100
      · simp [hy]
      · simpa [hy] using ih

/-- C5: for every raw season label, extract_year splits the label on slash
and whitespace, parses tokens left to right, and returns the first token
parsing to an integer strictly between 1900 and 2100; labels without such a
token, e.g. "N/A" or the empty label, yield none rather than an error. -/
theorem extractYear_correct :
    (∀ s : String, extractYear (some s) = specFirstYear s)
    ∧ extractYear (some "N/A") = none
    ∧ extractYear (some "") = none
    ∧ extractYear (some "2023/2024") = some 2023
    ∧ extractYear (some "2023") = some 2023
    ∧ extractYear none = none := by
  refine ⟨fun s => firstYearInRange_eq_filterMap _, ?_, rfl, ?_, ?_, rfl⟩
  · decide
  · decide
  · decide

/-! ### Available seasons (openligadb_fetch.py, lines 55-68) -/

/-- One entry of the getavailableleagues payload, reduced to the two fields
the source reads.  A missing leagueShortcut is modelled as the empty string,
matching the get default of the source; a missing leagueSeason is none. -/
structure LeagueRecord where
  leagueShortcut : String
  leagueSeason : Option String
deriving DecidableEq

/-- Character-wise lower casing, modelling the Python lower method on the
ASCII range. -/
def strLower (s : String) : String :=
  String.mk (s.toList.map Char.toLower)

/-- The year contributed by one payload record: its season year when the
record belongs to the requested league (case-insensitive shortcut match),
nothing otherwise. -/
def recordYear (leagueShort : String) (item : LeagueRecord) : Option Int :=
  if strLower item.leagueShortcut = strLower leagueShort then
    extractYear item.leagueSeason
  else none

/-- Insert a value into a strictly descending list, keeping it strictly
descending and duplicate-free. -/
def insertDesc (x : Int) : List Int → List Int
  | [] => [x]
  | y :: ys =>
    if y < x then x :: y :: ys
    else if x = y then y :: ys
    else y :: insertDesc x ys

/-- The strictly descending enumeration of the distinct elements of a list.
This models the sorted set construction of the source: the Python value
sorted(set(l), reverse=True) is the unique strictly descending list with the
same membership as l, which is what insertDesc folding produces. -/
def sortedDedupDesc (l : List Int) : List Int :=
  l.foldr insertDesc []

/-- Model of fetch_available_seasons (openligadb_fetch.py, lines 55-68) as a
function of the already-decoded getavailableleagues payload: keep records of
the requested league, extract a year from each, drop failures, then
deduplicate and sort descending. -/
def fetchAvailableSeasons (payload : List LeagueRecord) (leagueShort : String) :
    List Int :=
  sortedDedupDesc (payload.filterMap (recordYear leagueShort))

theorem mem_insertDesc (x a : Int) (l : List Int) :
    a ∈ insertDesc x l ↔ a = x ∨ a ∈ l := by
  induction l with
  | nil => simp [insertDesc]
  | cons y ys ih =>
    simp only [insertDesc]
    by_cases h1 : y < x
    · simp [h1]
    · by_cases h2 : x = y
      · subst h2
        simp [h1]
      · simp only [h1, if_false, h2, List.mem_cons, ih]
        tauto

theorem pairwise_insertDesc (x : Int) (l : List Int)
    (hl : l.Pairwise (· > ·)) : (insertDesc x l).Pairwise (· > ·) := by
  induction l with
  | nil => simp [insertDesc]
  | cons y ys ih =>
    rw [List.pairwise_cons] at hl
    obtain ⟨hy, hys⟩ := hl
    simp only [insertDesc]
    by_cases h1 : y < x
    · rw [if_pos h1]
      refine List.Pairwise.cons ?_ (List.Pairwise.cons hy hys)
      intro b hb
      rcases List.mem_cons.mp hb with hb | hb
      · omega
      · have := hy b hb
        omega
    · rw [if_neg h1]
      by_cases h2 : x = y
      · rw [if_pos h2]
        exact List.Pairwise.cons hy hys
      · rw [if_neg h2]
        refine List.Pairwise.cons ?_ (ih hys)
        intro b hb
        rcases (mem_insertDesc x b ys).mp hb with hb | hb
        · omega
        · exact hy b hb


/-! ### Match records and placeholder detection (openligadb_fetch.py,
lines 82-133) -/

/-- One entry of the MatchResults list of a match payload, reduced to the
fields the source reads.  Each field is optional because the source supplies
get defaults for all of them. -/
structure ResultEntry where
  resultOrderID : Option Int
  pointsTeam1 : Option Int
  pointsTeam2 : Option Int
deriving DecidableEq

/-- A team object of the match payload; the name is optional and may be
empty. -/
structure Team where
  teamName : Option String
deriving DecidableEq

/-- The slice of an OpenLigaDB match payload that the resolution logic and
the score display read.  A Team1 or Team2 field that is missing, None or a
falsy value in the payload is modelled as none, matching the or-default in
the source. -/
structure MatchRecord where
  team1 : Option Team
  team2 : Option Team
  matchResults : List ResultEntry
deriving DecidableEq

/-- Python truthiness of an optional string: present and nonempty. -/
def pyTruthyStr : Option String → Bool
  | none => false
  | some s => s != ""

/-- Model of _match_has_named_teams (openligadb_fetch.py, lines 82-85): both
team names present and nonempty. -/
def matchHasNamedTeams (m : MatchRecord) : Bool :=
  pyTruthyStr ((m.team1.getD ⟨none⟩).teamName)
    && pyTruthyStr ((m.team2.getD ⟨none⟩).teamName)

/-! ### Season resolution (openligadb_fetch.py, lines 88-107 and 199-256) -/

/-- Python or on an optional integer against an integer default: the value
when it is present and nonzero (truthy), the default otherwise. -/
def pyOrI (a : Option Int) (d : Int) : Int :=
  match a with
  | none => d
  | some v => if v = 0 then d else v

/-- The candidate loop of _find_latest_useful_season.  The accumulator is
the placeholder_source variable of the source, set to the first season whose
match set has no real record.  A left answer is an early return; a right
answer carries the final accumulator after exhausting the list. -/
def findLoop (fetch : Int → Option Int → List MatchRecord)
    (matchday : Option Int) :
    List Int → Option Int →
      (Int × List MatchRecord × Option Int × Bool) ⊕ Option Int
  | [], ph => Sum.inr ph
  | s :: rest, ph =>
    let ms := fetch s matchday
    if ms.any matchHasNamedTeams then Sum.inl (s, ms, ph, false)
    else findLoop fetch matchday rest (if ph.isNone then some s else ph)

/-- Model of _find_latest_useful_season (openligadb_fetch.py, lines 88-107).
The fetch argument stands for fetch_matchday with the league short code
already applied; it receives the season and the optional matchday.  The
Except error models the SystemExit raised on an empty season list. -/
def findLatestUsefulSeason (fetch : Int → Option Int → List MatchRecord)
    (matchday : Option Int) (seasons : List Int) :
    Except String (Int × List MatchRecord × Option Int × Bool) :=
  match findLoop fetch matchday seasons none with
  | Sum.inl r => Except.ok r
  | Sum.inr ph =>
    match seasons with
    | [] => Except.error "Keine Saisons gefunden"
    | s0 :: _ => Except.ok (s0, fetch s0 matchday, some (pyOrI ph s0), true)

/-- The command line arguments that the resolution part of main reads. -/
structure Args where
  leagueShort : String
  season : Option Int
  matchday : Option Int
  tableSeason : Option Int
  showTable : Bool
deriving DecidableEq

/-- The structured outcome of the resolution part of main: the season whose
matches are shown, the matches, the placeholder diagnostics, whether the
correction notice for an unlisted explicit season was emitted, and the
season used for the table fetch. -/
structure MainOutcome where
  season : Int
  matchList : List MatchRecord
  placeholderSource : Option Int
  placeholderOnly : Bool
  correctionNotice : Bool
  tableSeason : Int
deriving DecidableEq

/-- Model of the resolution logic of main (openligadb_fetch.py, lines
199-256): the season list is built from the payload, an empty list is fatal,
an explicit season is checked against the list and substituted by the newest
candidate with a notice when absent, auto mode runs the placeholder scan,
and the table season is the Python or-chain of the table-season override,
the raw requested season and the resolved season.  The output formatting of
the source is not modelled. -/
def mainResolve (payload : List LeagueRecord)
    (fetch : Int → Option Int → List MatchRecord) (args : Args) :
    Except String MainOutcome :=
  match fetchAvailableSeasons payload args.leagueShort with
  | [] => Except.error "Keine Saisons gefunden"
  | s0 :: rest =>
    match args.season with
    | some sReq =>
      let listed : Bool := decide (sReq ∈ s0 :: rest)
      let season := if sReq ∈ s0 :: rest then sReq else s0
      Except.ok
        { season := season
          matchList := fetch season args.matchday
          placeholderSource := none
          placeholderOnly := false
          correctionNotice := !listed
          tableSeason := pyOrI args.tableSeason (pyOrI (some sReq) season) }
    | none =>
      match findLatestUsefulSeason fetch args.matchday (s0 :: rest) with
      | Except.error e => Except.error e
      | Except.ok (season, ms, ph, degraded) =>
        Except.ok
          { season := season
            matchList := ms
            placeholderSource := ph
            placeholderOnly := degraded
            correctionNotice := false
            tableSeason := pyOrI args.tableSeason (pyOrI none season) }

/-! ### Lemmas about the candidate loop -/

/-- The value of the placeholder_source accumulator after a run of seasons
without real matches: an already-set accumulator is kept, otherwise the
first season of the run. -/
def phAfter (ph : Option Int) (pre : List Int) : Option Int :=
  match ph with
  | some v => some v
  | none => pre.head?

theorem findLoop_append_placeholder (fetch : Int → Option Int → List MatchRecord)
    (matchday : Option Int) (pre rest : List Int) (ph : Option Int)
    (hpre : ∀ t ∈ pre, (fetch t matchday).any matchHasNamedTeams = false) :
    findLoop fetch matchday (pre ++ rest) ph =
      findLoop fetch matchday rest (phAfter ph pre) := by
  induction pre generalizing ph with
  | nil => cases ph <;> simp [phAfter]
  | cons t pre' ih =>
    have ht := hpre t (by simp)
    simp only [List.cons_append, findLoop, ht, Bool.false_eq_true, if_false,
      List.append_eq]
    rw [ih _ (fun u hu => hpre u (by simp [hu]))]
    congr 1
    cases ph <;> simp [phAfter]

/-! ### Concrete worlds used as witnesses and counterexamples -/

/-- A placeholder match: no team assignments yet. -/
def placeholderMatch : MatchRecord := ⟨none, none, []⟩

/-- A real match: both team names present and nonempty. -/
def realMatch : MatchRecord :=
  ⟨some ⟨some "FC Bayern"⟩, some ⟨some "BVB"⟩, []⟩

/-- A fetch world where season 2024 exposes a real match and every other
season only a placeholder slot. -/
def fetchOnly2024 : Int → Option Int → List MatchRecord :=
  fun s _ => if s = 2024 then [realMatch] else [placeholderMatch]

/-- A fetch world with placeholder data everywhere. -/
def fetchAllPlaceholder : Int → Option Int → List MatchRecord :=
  fun _ _ => [placeholderMatch]

/-- A fetch world with no matches at all. -/
def noMatches : Int → Option Int → List MatchRecord :=
  fun _ _ => []

/-- A one-record getavailableleagues payload listing season 2024 of league
bl1. -/
def payloadBl1 : List LeagueRecord := [⟨"bl1", some "2024"⟩]

/-! ### Claim C1 -/

/-- C1 fails on the code: in auto mode with candidates [2025, 2024] where
only 2024 has a real match, the resolver returns season 2024 with degraded
false as the claim says, but fallback_source is some 2025 (the newest
skipped placeholder candidate), not none as the claim states. -/
theorem findLatestUsefulSeason_fallbackSource_not_none :
    findLatestUsefulSeason fetchOnly2024 none [2025, 2024] =
      Except.ok (2024, [realMatch], some 2025, false)
    ∧ some (2025 : Int) ≠ none :=
  ⟨rfl, Option.some_ne_none 2025⟩

/-- C1 amended: in auto mode the resolver iterates the candidates in list
order (newest to oldest), fetches each with the requested matchday or the
whole season, and returns the first candidate whose match set has at least
one real record, together with its matches and degraded false; the
fallback_source component is the newest skipped placeholder candidate, which
is none exactly when the first candidate already wins. -/
theorem findLatestUsefulSeason_first_real
    (fetch : Int → Option Int → List MatchRecord) (matchday : Option Int)
    (pre post : List Int) (s : Int)
    (hpre : ∀ t ∈ pre, (fetch t matchday).any matchHasNamedTeams = false)
    (hs : (fetch s matchday).any matchHasNamedTeams = true) :
    findLatestUsefulSeason fetch matchday (pre ++ s :: post) =
      Except.ok (s, fetch s matchday, pre.head?, false) := by
  unfold findLatestUsefulSeason
  rw [findLoop_append_placeholder fetch matchday pre (s :: post) none hpre]
  simp [findLoop, hs, phAfter]

/-- Witness for the amended C1 at the concrete world fetchOnly2024. -/
theorem findLatestUsefulSeason_first_real_witness :
    findLatestUsefulSeason fetchOnly2024 none ([2025] ++ 2024 :: []) =
      Except.ok (2024, fetchOnly2024 2024 none, [(2025 : Int)].head?, false) :=
  findLatestUsefulSeason_first_real fetchOnly2024 none [2025] [] 2024
    (by decide) (by decide)

/-! ### Claim C3 -/

/-- C3: in auto mode, when no candidate season in the whole newest-to-oldest
iteration has any real match record, the resolver does not fail: it returns
the newest candidate with its (placeholder) matches, degraded true, and
fallback_source equal to that newest candidate. -/
theorem findLatestUsefulSeason_all_placeholder
    (fetch : Int → Option Int → List MatchRecord) (matchday : Option Int)
    (s0 : Int) (rest : List Int)
    (hall : ∀ t ∈ s0 :: rest, (fetch t matchday).any matchHasNamedTeams = false) :
    findLatestUsefulSeason fetch matchday (s0 :: rest) =
      Except.ok (s0, fetch s0 matchday, some s0, true) := by
  unfold findLatestUsefulSeason
  have h := findLoop_append_placeholder fetch matchday (s0 :: rest) [] none hall
  rw [List.append_nil] at h
  rw [h]
  simp [findLoop, phAfter, pyOrI]

/-- Witness for C3 at the all-placeholder world with candidates
[2025, 2024], matching the example of the spec. -/
theorem findLatestUsefulSeason_all_placeholder_witness :
    findLatestUsefulSeason fetchAllPlaceholder none [2025, 2024] =
      Except.ok (2025, fetchAllPlaceholder 2025 none, some 2025, true) :=
  findLatestUsefulSeason_all_placeholder fetchAllPlaceholder none 2025 [2024]
    (by decide)

/-! ### Claim C6 -/

/-- C6: when the caller supplies an explicit season that is not in the
candidate set, main emits the non-fatal correction notice, substitutes the
newest candidate, fetches and returns that season with the requested
matchday, and performs no placeholder scan: the placeholder diagnostics stay
none and false and the result only depends on the fetch of the substituted
season. -/
theorem mainResolve_explicit_unlisted
    (payload : List LeagueRecord) (fetch : Int → Option Int → List MatchRecord)
    (args : Args) (sReq s0 : Int) (rest : List Int)
    (hseason : args.season = some sReq)
    (hL : fetchAvailableSeasons payload args.leagueShort = s0 :: rest)
    (hmem : sReq ∉ s0 :: rest) :
    mainResolve payload fetch args =
      Except.ok
        { season := s0
          matchList := fetch s0 args.matchday
          placeholderSource := none
          placeholderOnly := false
          correctionNotice := true
          tableSeason := pyOrI args.tableSeason (pyOrI (some sReq) s0) } := by
  unfold mainResolve
  rw [hL, hseason]
  simp [hmem]

/-- Witness for C6: requesting season 1999 of the one-season payload for
bl1 substitutes the listed season 2024 with the notice set. -/
theorem mainResolve_explicit_unlisted_witness :
    mainResolve payloadBl1 noMatches ⟨"bl1", some 1999, none, none, false⟩ =
      Except.ok
        { season := 2024
          matchList := []
          placeholderSource := none
          placeholderOnly := false
          correctionNotice := true
          tableSeason := 1999 } :=
  mainResolve_explicit_unlisted payloadBl1 noMatches
    ⟨"bl1", some 1999, none, none, false⟩ 1999 2024 [] rfl (by decide) (by decide)

/-! ### Claim C7 -/

theorem pairwise_sortedDedupDesc (l : List Int) :
    (sortedDedupDesc l).Pairwise (· > ·) := by
  induction l with
  | nil => simp [sortedDedupDesc]
  | cons x xs ih =>
    simpa [sortedDedupDesc] using pairwise_insertDesc x (sortedDedupDesc xs) ih

theorem mem_sortedDedupDesc (a : Int) (l : List Int) :
    a ∈ sortedDedupDesc l ↔ a ∈ l := by
  induction l with
  | nil => simp [sortedDedupDesc]
  | cons x xs ih =>
    show a ∈ insertDesc x (sortedDedupDesc xs) ↔ a ∈ x :: xs
    rw [mem_insertDesc]
    simp [ih]

theorem nodup_sortedDedupDesc (l : List Int) : (sortedDedupDesc l).Nodup :=
  (pairwise_sortedDedupDesc l).imp (fun h => ne_of_gt h)

theorem findLatestUsefulSeason_ok_of_cons
    (fetch : Int → Option Int → List MatchRecord) (matchday : Option Int)
    (s0 : Int) (rest : List Int) :
    ∃ r, findLatestUsefulSeason fetch matchday (s0 :: rest) = Except.ok r := by
  rcases hfl : findLoop fetch matchday (s0 :: rest) none with r | ph
  · exact ⟨r, by simp [findLatestUsefulSeason, hfl]⟩
  · exact ⟨(s0, fetch s0 matchday, some (pyOrI ph s0), true),
      by simp [findLatestUsefulSeason, hfl]⟩

/-- C7: the candidate season set is the strictly descending, duplicate-free
enumeration of the years extracted from the payload records whose league
code matches the requested one case-insensitively, so every qualifying year
appears exactly once; and the resolution of main fails exactly when this set
is empty. -/
theorem fetchAvailableSeasons_correct
    (payload : List LeagueRecord) (short : String)
    (fetch : Int → Option Int → List MatchRecord) (args : Args) :
    ((fetchAvailableSeasons payload short).Pairwise (· > ·))
    ∧ (∀ y : Int, y ∈ fetchAvailableSeasons payload short ↔
        ∃ item ∈ payload, strLower item.leagueShortcut = strLower short ∧
          extractYear item.leagueSeason = some y)
    ∧ (∀ y : Int, (fetchAvailableSeasons payload short).count y =
        if y ∈ fetchAvailableSeasons payload short then 1 else 0)
    ∧ ((∃ e, mainResolve payload fetch args = Except.error e) ↔
        fetchAvailableSeasons payload args.leagueShort = []) := by
  refine ⟨pairwise_sortedDedupDesc _, ?_, ?_, ?_⟩
  · intro y
    rw [fetchAvailableSeasons, mem_sortedDedupDesc, List.mem_filterMap]
    constructor
    · rintro ⟨item, hitem, hy⟩
      refine ⟨item, hitem, ?_⟩
      by_cases hc : strLower item.leagueShortcut = strLower short
      · exact ⟨hc, by simpa [recordYear, hc] using hy⟩
      · simp [recordYear, hc] at hy
    · rintro ⟨item, hitem, hc, hy⟩
      exact ⟨item, hitem, by simp [recordYear, hc, hy]⟩
  · intro y
    by_cases hy : y ∈ fetchAvailableSeasons payload short
    · rw [if_pos hy]
      exact List.count_eq_one_of_mem (nodup_sortedDedupDesc _) hy
    · rw [if_neg hy]
      exact List.count_eq_zero.mpr hy
  · constructor
    · rintro ⟨e, he⟩
      by_contra hne
      rcases hL : fetchAvailableSeasons payload args.leagueShort with _ | ⟨s0, rest⟩
      · exact hne hL
      · unfold mainResolve at he
        rw [hL] at he
        rcases hargs : args.season with _ | sReq
        · rw [hargs] at he
          dsimp only at he
          obtain ⟨⟨a, b, c, d⟩, hr⟩ :=
            findLatestUsefulSeason_ok_of_cons fetch args.matchday s0 rest
          rw [hr] at he
          simp at he
        · rw [hargs] at he
          simp at he
    · intro hL
      refine ⟨"Keine Saisons gefunden", ?_⟩
      unfold mainResolve
      rw [hL]

/-! ### Claim C10 -/

/-- C10 fails on the code: with the table requested, no table-season
override, and an explicit requested season of 0 that is absent from the
candidate set, the matches are fetched for the substituted season 2024 and
the table season is also 2024, not the originally requested 0, because 0 is
falsy in the Python or-chain. -/
theorem mainResolve_tableSeason_zero_requested :
    mainResolve payloadBl1 noMatches ⟨"bl1", some 0, none, none, true⟩ =
      Except.ok
        { season := 2024
          matchList := []
          placeholderSource := none
          placeholderOnly := false
          correctionNotice := true
          tableSeason := 2024 }
    ∧ (2024 : Int) ≠ 0 :=
  ⟨rfl, by decide⟩

/-- C10 amended: when the table is requested without a table-season
override and the explicitly requested season is absent from the candidate
set and substituted, the table season is still the originally requested
season rather than the substituted one, provided the requested value is
nonzero; a requested season of 0 is falsy in the Python or-chain and falls
back to the resolved season. -/
theorem mainResolve_tableSeason_requested
    (payload : List LeagueRecord) (fetch : Int → Option Int → List MatchRecord)
    (args : Args) (sReq s0 : Int) (rest : List Int)
    (_hshow : args.showTable = true)
    (htable : args.tableSeason = none)
    (hseason : args.season = some sReq)
    (hnz : sReq ≠ 0)
    (hL : fetchAvailableSeasons payload args.leagueShort = s0 :: rest)
    (hmem : sReq ∉ s0 :: rest) :
    mainResolve payload fetch args =
      Except.ok
        { season := s0
          matchList := fetch s0 args.matchday
          placeholderSource := none
          placeholderOnly := false
          correctionNotice := true
          tableSeason := sReq } := by
  unfold mainResolve
  rw [hL, hseason, htable]
  simp [hmem, pyOrI, hnz]

/-- Witness for the amended C10: requesting season 1999 with the table
shown keeps 1999 as the table season while the matches use 2024. -/
theorem mainResolve_tableSeason_requested_witness :
    mainResolve payloadBl1 noMatches ⟨"bl1", some 1999, none, none, true⟩ =
      Except.ok
        { season := 2024
          matchList := []
          placeholderSource := none
          placeholderOnly := false
          correctionNotice := true
          tableSeason := 1999 } :=
  mainResolve_tableSeason_requested payloadBl1 noMatches
    ⟨"bl1", some 1999, none, none, true⟩ 1999 2024 [] rfl rfl rfl (by decide)
    (by decide) (by decide)

/-! ### Score selection for display (openligadb_fetch.py, lines 129-133) -/

/-- The sort key of a result entry: its ResultOrderID with the get default
of 0 used by the source. -/
def resultKey (r : ResultEntry) : Int :=
  r.resultOrderID.getD 0

/-- Insert an entry into a list so that, when the list is ascending by
resultKey, the result is ascending and the new entry lands before existing
entries with the same key.  Folding this over a list from the right is a
stable ascending sort by resultKey, and therefore computes the same list as
the stable Python sorted call of the source. -/
def insertByKey (r : ResultEntry) : List ResultEntry → List ResultEntry
  | [] => [r]
  | x :: xs =>
    if resultKey r ≤ resultKey x then r :: x :: xs else x :: insertByKey r xs

/-- Stable ascending sort of the result entries by resultKey, modelling the
sorted call of the source. -/
def sortByOrderId (l : List ResultEntry) : List ResultEntry :=
  l.foldr insertByKey []

/-- Display form of an optional point count, with the question-mark default
of the source. -/
def showPts : Option Int → String
  | some v => toString v
  | none => "?"

/-- Model of the score fragment of format_match (openligadb_fetch.py, lines
129-133): the entry selected from a nonempty result list is the last element
of the stable ascending sort by ResultOrderID, and an empty result list is
displayed as a dash (not yet played). -/
def matchScore (results : List ResultEntry) : String :=
  match (sortByOrderId results).getLast? with
  | some latest =>
      showPts latest.pointsTeam1 ++ ":" ++ showPts latest.pointsTeam2
  | none => "-"

/-- The spec-side selection: the entry with the maximum ordering key, ties
broken by the later entry in iteration order. -/
def pickLater (best x : ResultEntry) : ResultEntry :=
  if resultKey best ≤ resultKey x then x else best

/-- The spec-side "latest result" of a match: fold pickLater over the
recorded entries in iteration order. -/
def lastMaxResult : List ResultEntry → Option ResultEntry
  | [] => none
  | r :: rs => some (rs.foldl pickLater r)

theorem pickLater_assoc (a b c : ResultEntry) :
    pickLater (pickLater a b) c = pickLater a (pickLater b c) := by
  unfold pickLater
  split_ifs <;> first | rfl | omega

theorem foldl_pickLater_comm (t : List ResultEntry) (a b : ResultEntry) :
    pickLater a (t.foldl pickLater b) = t.foldl pickLater (pickLater a b) := by
  induction t generalizing b with
  | nil => rfl
  | cons c t' ih =>
    simp only [List.foldl_cons]
    rw [ih, pickLater_assoc]

theorem getLast?_cons_of_ne_nil (x : ResultEntry) (l : List ResultEntry)
    (h : l ≠ []) : (x :: l).getLast? = l.getLast? := by
  cases l with
  | nil => exact absurd rfl h
  | cons y ys => exact List.getLast?_cons_cons

theorem insertByKey_ne_nil (r : ResultEntry) (l : List ResultEntry) :
    insertByKey r l ≠ [] := by
  cases l with
  | nil => simp [insertByKey]
  | cons x xs =>
    simp only [insertByKey]
    split_ifs <;> simp

theorem getLast?_insertByKey (l : List ResultEntry)
    (hl : l.Pairwise (fun a b => resultKey a ≤ resultKey b)) (r : ResultEntry) :
    (insertByKey r l).getLast? =
      some (Option.elim l.getLast? r (fun y => pickLater r y)) := by
  induction l with
  | nil => rfl
  | cons x xs ih =>
    rw [List.pairwise_cons] at hl
    obtain ⟨hx, hxs⟩ := hl
    simp only [insertByKey]
    by_cases hle : resultKey r ≤ resultKey x
    · rw [if_pos hle]
      rw [getLast?_cons_of_ne_nil r (x :: xs) (by simp)]
      cases hys : xs.getLast? with
      | none =>
        have : xs = [] := List.getLast?_eq_none_iff.mp hys
        subst this
        simp [pickLater, hle]
      | some y =>
        have hy : y ∈ xs := by
          have := List.mem_getLast?_eq_getLast (l := xs) (x := y) hys
          obtain ⟨hne, hyy⟩ := this
          exact hyy ▸ List.getLast_mem hne
        have hxy : resultKey x ≤ resultKey y := hx y hy
        rw [getLast?_cons_of_ne_nil x xs
          (by rintro rfl; simp at hys)]
        rw [hys]
        simp [pickLater, le_trans hle hxy]
    · rw [if_neg hle]
      rw [getLast?_cons_of_ne_nil x (insertByKey r xs) (insertByKey_ne_nil r xs)]
      rw [ih hxs]
      cases hys : xs.getLast? with
      | none =>
        have : xs = [] := List.getLast?_eq_none_iff.mp hys
        subst this
        simp [pickLater, hle]
      | some y =>
        rw [getLast?_cons_of_ne_nil x xs
          (by rintro rfl; simp at hys)]
        rw [hys]

theorem mem_insertByKey (r b : ResultEntry) (l : List ResultEntry) :
    b ∈ insertByKey r l ↔ b = r ∨ b ∈ l := by
  induction l with
  | nil => simp [insertByKey]
  | cons x xs ih =>
    simp only [insertByKey]
    by_cases hle : resultKey r ≤ resultKey x
    · rw [if_pos hle]
      simp only [List.mem_cons]
    · rw [if_neg hle]
      simp only [List.mem_cons, ih]
      tauto

theorem pairwise_insertByKey (r : ResultEntry) (l : List ResultEntry)
    (hl : l.Pairwise (fun a b => resultKey a ≤ resultKey b)) :
    (insertByKey r l).Pairwise (fun a b => resultKey a ≤ resultKey b) := by
  induction l with
  | nil => simp [insertByKey]
  | cons x xs ih =>
    rw [List.pairwise_cons] at hl
    obtain ⟨hx, hxs⟩ := hl
    simp only [insertByKey]
    by_cases hle : resultKey r ≤ resultKey x
    · rw [if_pos hle]
      refine List.Pairwise.cons ?_ (List.Pairwise.cons hx hxs)
      intro b hb
      rcases List.mem_cons.mp hb with rfl | hb
      · exact hle
      · exact le_trans hle (hx b hb)
    · rw [if_neg hle]
      refine List.Pairwise.cons ?_ (ih hxs)
      intro b hb
      rcases (mem_insertByKey r b xs).mp hb with rfl | hb'
      · omega
      · exact hx b hb'

theorem pairwise_sortByOrderId (l : List ResultEntry) :
    (sortByOrderId l).Pairwise (fun a b => resultKey a ≤ resultKey b) := by
  induction l with
  | nil => simp [sortByOrderId]
  | cons x xs ih =>
    simpa [sortByOrderId] using pairwise_insertByKey x (sortByOrderId xs) ih

theorem getLast?_sortByOrderId (l : List ResultEntry) :
    (sortByOrderId l).getLast? = lastMaxResult l := by
  induction l with
  | nil => rfl
  | cons r rs ih =>
    show (insertByKey r (sortByOrderId rs)).getLast? = lastMaxResult (r :: rs)
    rw [getLast?_insertByKey (sortByOrderId rs) (pairwise_sortByOrderId rs) r]
    rw [ih]
    cases rs with
    | nil => rfl
    | cons a t =>
      show some (Option.elim (some (t.foldl pickLater a)) r (fun y => pickLater r y))
        = some ((a :: t).foldl pickLater r)
      simp only [Option.elim, List.foldl_cons]
      rw [foldl_pickLater_comm]

/-- C8: the displayed score of a match with recorded results is taken from
the entry with the maximum ordering key, ties broken by the last such entry
in iteration order, which equals the last element of the stable ascending
sort by key; for keys [1, 3, 2] with points (1,0), (2,1), (1,1) the selected
score is 2:1, and a match with no result entries is shown as not yet
played. -/
theorem matchScore_correct :
    (∀ l : List ResultEntry, (sortByOrderId l).getLast? = lastMaxResult l)
    ∧ matchScore
        [⟨some 1, some 1, some 0⟩, ⟨some 3, some 2, some 1⟩,
          ⟨some 2, some 1, some 1⟩] = "2:1"
    ∧ matchScore [] = "-" :=
  ⟨getLast?_sortByOrderId, by decide, rfl⟩

/-! ### League resolution (sportmonks_fetch.py, lines 50-122) -/

/-- Whether the needle occurs as a contiguous run inside the haystack,
modelling the Python in operator on strings.  The empty needle matches every
haystack. -/
def containsSub (needle : List Char) : List Char → Bool
  | [] => needle.isEmpty
  | c :: cs => needle.isPrefixOf (c :: cs) || containsSub needle cs

/-- Case-insensitive substring test used by the matcher: both sides are
lowered before the containment test, as in the source. -/
def pySubstr (needle hay : String) : Bool :=
  containsSub (strLower needle).toList (strLower hay).toList

/-- The country field of a league candidate as the source reads it.  absent
covers a missing key, a None value and falsy values: the or-default of the
source turns all of them into an empty dictionary whose id lookup yields
none.  dict is a dictionary value with an optional id entry.  other is a
truthy non-dictionary value, for which the source falls back to the flat
country_id field of the candidate. -/
inductive CountryField
  | absent
  | dict (id : Option Int)
  | other
deriving DecidableEq

/-- The slice of a Sportmonks league record read by _matches_league and
find_league_id.  A missing display name is modelled as the empty string
(the get default of the source); a missing id is none, and the Python
truthiness of a present integer id is the nonzero test. -/
structure LeagueCandidate where
  name : String
  id : Option Int
  country : CountryField
  country_id : Option Int
deriving DecidableEq

/-- The candidate country id computed by _matches_league (sportmonks_fetch.py,
lines 58-61). -/
def candidateCountryId (c : LeagueCandidate) : Option Int :=
  match c.country with
  | CountryField.absent => none
  | CountryField.dict i => i
  | CountryField.other => c.country_id

/-- Model of _matches_league (sportmonks_fetch.py, lines 50-62): the lowered
query name must occur in the lowered display name, and when a country filter
is supplied the candidate country id must equal it exactly. -/
def matchesLeague (c : LeagueCandidate) (name : String)
    (countryId : Option Int) : Bool :=
  if !(pySubstr name c.name) then false
  else
    match countryId with
    | none => true
    | some cid => candidateCountryId c == some cid

/-- Model of _select_league_candidate (sportmonks_fetch.py, lines 65-72):
the first entry of the data list satisfying the matcher.  A response payload
is represented by its data list; the empty dictionary substituted after a
caught search failure has an empty data default, hence []. -/
def selectLeagueCandidate (data : List LeagueCandidate) (name : String)
    (countryId : Option Int) : Option LeagueCandidate :=
  data.find? (fun c => matchesLeague c name countryId)

/-- The guard and conversion find_league_id applies to a selected candidate:
a candidate with a present, nonzero (truthy) id yields that id, anything
else yields nothing.  A candidate that is the falsy empty dictionary also
fails the source guard, and is covered by the absent id case. -/
def truthyId : Option LeagueCandidate → Option Int
  | none => none
  | some c =>
    match c.id with
    | none => none
    | some v => if v = 0 then none else some v

/-- Transport failures of the fetch adapter: a non-2xx HTTP status (the
requests.HTTPError raised by raise_for_status) or a body that is not a JSON
dictionary (the JSON decode failure, or the ValueError raised in api_get on
a non-dictionary payload). -/
inductive FetchErr
  | httpError
  | jsonError
deriving DecidableEq

/-- Errors of find_league_id: a propagated transport failure, or the
LookupError raised when every strategy is exhausted. -/
inductive LeagueError
  | transport (e : FetchErr)
  | leagueNotFound
deriving DecidableEq

/-- The remote data visible to find_league_id: the response of the name
search endpoint, of the country listing endpoint for each country id, and of
the bounded full listing endpoint.  Each response is either a data list or a
transport failure. -/
structure LeagueWorld where
  searchResp : Except FetchErr (List LeagueCandidate)
  countryResp : Int → Except FetchErr (List LeagueCandidate)
  listResp : Except FetchErr (List LeagueCandidate)

/-- Model of find_league_id (sportmonks_fetch.py, lines 75-122).  Only the
HTTP-status failure of the search endpoint is caught (the except clause
names requests.HTTPError) and replaced by the empty payload; every other
failure propagates.  Each strategy returns as soon as its first matching
candidate carries a truthy id; the country strategy runs only under a
country filter, and exhaustion raises the LookupError modelled by
leagueNotFound. -/
def findLeagueId (w : LeagueWorld) (name : String) (countryId : Option Int) :
    Except LeagueError Int :=
  match
    (match w.searchResp with
     | Except.ok d => Except.ok d
     | Except.error FetchErr.httpError => Except.ok []
     | Except.error e => Except.error (LeagueError.transport e)) with
  | Except.error e => Except.error e
  | Except.ok searchData =>
    match truthyId (selectLeagueCandidate searchData name countryId) with
    | some i => Except.ok i
    | none =>
      match
        (match countryId with
         | none => Except.ok none
         | some cid =>
           match w.countryResp cid with
           | Except.error e => Except.error (LeagueError.transport e)
           | Except.ok d =>
             Except.ok (truthyId (selectLeagueCandidate d name countryId))) with
      | Except.error e => Except.error e
      | Except.ok (some i) => Except.ok i
      | Except.ok none =>
        match w.listResp with
        | Except.error e => Except.error (LeagueError.transport e)
        | Except.ok d =>
          match truthyId (selectLeagueCandidate d name countryId) with
          | some i => Except.ok i
          | none => Except.error LeagueError.leagueNotFound

/-- The strategy cascade in the words of the spec, amended with the truthy
id requirement: given the three strategy result lists (the country list
present only when a filter is set), return the id of the first matching
candidate of the first strategy whose first matching candidate carries a
truthy id, and fail with LeagueNotFound when all strategies are
exhausted. -/
def cascadeSpec (d1 : List LeagueCandidate)
    (d2 : Option (List LeagueCandidate)) (d3 : List LeagueCandidate)
    (name : String) (countryId : Option Int) : Except LeagueError Int :=
  match truthyId (selectLeagueCandidate d1 name countryId) with
  | some i => Except.ok i
  | none =>
    match d2.bind (fun d => truthyId (selectLeagueCandidate d name countryId)) with
    | some i => Except.ok i
    | none =>
      match truthyId (selectLeagueCandidate d3 name countryId) with
      | some i => Except.ok i
      | none => Except.error LeagueError.leagueNotFound

/-! ### Concrete league candidates -/

/-- A candidate matching the Bundesliga query but carrying no id. -/
def candNoId : LeagueCandidate := ⟨"Bundesliga", none, CountryField.absent, none⟩

/-- A candidate matching the Bundesliga query with id 82. -/
def candBundesliga : LeagueCandidate :=
  ⟨"Bundesliga", some 82, CountryField.absent, none⟩

/-- A candidate with display name A and no id. -/
def candA : LeagueCandidate := ⟨"A", none, CountryField.absent, none⟩

/-- A candidate with display name B and id 5. -/
def candB : LeagueCandidate := ⟨"B", some 5, CountryField.absent, none⟩

/-! ### Claim C2 -/

/-- C2 fails on the code: a non-JSON body from the search endpoint is not
treated as zero candidates.  In a world where treating the failure as an
empty candidate list would resolve id 82 from the full listing (second
conjunct), the code instead propagates the transport failure (first
conjunct). -/
theorem findLeagueId_jsonError_propagates :
    findLeagueId
        ⟨Except.error FetchErr.jsonError, fun _ => Except.ok [],
          Except.ok [candBundesliga]⟩ "Bundesliga" none =
      Except.error (LeagueError.transport FetchErr.jsonError)
    ∧ findLeagueId
        ⟨Except.ok [], fun _ => Except.ok [], Except.ok [candBundesliga]⟩
        "Bundesliga" none = Except.ok 82 :=
  ⟨rfl, rfl⟩

/-- C2 amended: a non-2xx HTTP failure of the name search endpoint is
treated exactly like an empty candidate list, so resolution proceeds to the
remaining strategies; a non-JSON body from the search endpoint propagates as
a fatal transport error, as does any failure of the country listing or of
the full listing endpoint. -/
theorem findLeagueId_searchFailure (w : LeagueWorld) (name : String)
    (countryId : Option Int) (e : FetchErr) (cid : Int) :
    (findLeagueId { w with searchResp := Except.error FetchErr.httpError }
        name countryId =
      findLeagueId { w with searchResp := Except.ok [] } name countryId)
    ∧ (findLeagueId { w with searchResp := Except.error FetchErr.jsonError }
        name countryId =
      Except.error (LeagueError.transport FetchErr.jsonError))
    ∧ (findLeagueId
        { w with
            searchResp := Except.ok []
            countryResp := fun _ => Except.error e }
        name (some cid) = Except.error (LeagueError.transport e))
    ∧ (findLeagueId
        { w with
            searchResp := Except.ok []
            countryResp := fun _ => Except.ok []
            listResp := Except.error e }
        name none = Except.error (LeagueError.transport e)) :=
  ⟨rfl, rfl, rfl, rfl⟩

/-! ### Claim C4 -/

/-- C4 fails on the code: the search strategy produces a matching candidate
(candNoId satisfies the matcher, second conjunct), yet resolution does not
short-circuit on that strategy: because the candidate has no truthy id
(third conjunct) the code falls through and returns id 82 from the full
listing (first conjunct). -/
theorem findLeagueId_matching_without_id_skipped :
    findLeagueId
        ⟨Except.ok [candNoId], fun _ => Except.ok [],
          Except.ok [candBundesliga]⟩ "Bundesliga" none = Except.ok 82
    ∧ selectLeagueCandidate [candNoId] "Bundesliga" none = some candNoId
    ∧ candNoId.id = none :=
  ⟨rfl, rfl, rfl⟩

/-- C4 amended: with all three endpoints reachable, find_league_id equals
the strategy cascade: strategies run strictly in order (name search, then
the country listing only under a country filter, then the bounded full
listing), each applies the same matcher to its list, and the first strategy
whose first matching candidate carries a truthy id short-circuits the rest
and yields that id; LeagueNotFound results exactly when all strategies are
exhausted without such a candidate. -/
theorem findLeagueId_cascade (d1 d3 : List LeagueCandidate)
    (d2 : Int → List LeagueCandidate) (name : String)
    (countryId : Option Int) :
    findLeagueId ⟨Except.ok d1, fun c => Except.ok (d2 c), Except.ok d3⟩
        name countryId =
      cascadeSpec d1 (countryId.map d2) d3 name countryId := by
  cases countryId with
  | none =>
    cases h1 : truthyId (selectLeagueCandidate d1 name none) with
    | some i => simp [findLeagueId, cascadeSpec, h1]
    | none =>
      cases h3 : truthyId (selectLeagueCandidate d3 name none) with
      | some i => simp [findLeagueId, cascadeSpec, h1, h3]
      | none => simp [findLeagueId, cascadeSpec, h1, h3]
  | some cid =>
    cases h1 : truthyId (selectLeagueCandidate d1 name (some cid)) with
    | some i => simp [findLeagueId, cascadeSpec, h1]
    | none =>
      cases h2 : truthyId (selectLeagueCandidate (d2 cid) name (some cid)) with
      | some i => simp [findLeagueId, cascadeSpec, h1, h2]
      | none =>
        cases h3 : truthyId (selectLeagueCandidate d3 name (some cid)) with
        | some i => simp [findLeagueId, cascadeSpec, h1, h2, h3]
        | none => simp [findLeagueId, cascadeSpec, h1, h2, h3]

/-! ### Claim C9 -/

theorem containsSub_nil (hay : List Char) : containsSub [] hay = true := by
  cases hay with
  | nil => rfl
  | cons c cs => simp [containsSub, List.isPrefixOf]

/-- C9 fails on the code: with an empty query name and no country filter
every candidate matches (second conjunct), but resolution only examines the
first candidate of the search list.  Here the first candidate lacks an id,
so the later candidate with truthy id 5 (third conjunct) is ignored; with
the remaining strategies empty the code raises LeagueNotFound instead of
returning 5. -/
theorem findLeagueId_emptyName_first_only :
    findLeagueId
        ⟨Except.ok [candA, candB], fun _ => Except.ok [], Except.ok []⟩
        "" none = Except.error LeagueError.leagueNotFound
    ∧ matchesLeague candB "" none = true
    ∧ candB.id = some 5 :=
  ⟨rfl, rfl, rfl⟩

/-- C9 amended: with an empty query name and no country filter the matcher
accepts every candidate, so over a nonempty search result list resolution
selects exactly the first candidate: its id is returned when truthy, and
otherwise the search strategy is abandoned and resolution behaves as if the
search had returned no candidates at all. -/
theorem findLeagueId_emptyName (w : LeagueWorld) (c0 : LeagueCandidate)
    (rest : List LeagueCandidate) :
    (∀ c : LeagueCandidate, matchesLeague c "" none = true)
    ∧ findLeagueId { w with searchResp := Except.ok (c0 :: rest) } "" none =
        (match truthyId (some c0) with
         | some i => Except.ok i
         | none =>
             findLeagueId { w with searchResp := Except.ok [] } "" none) := by
  constructor
  · intro c
    simp [matchesLeague, pySubstr, strLower, containsSub_nil]
  · have hsel : selectLeagueCandidate (c0 :: rest) "" none = some c0 :=
      List.find?_cons_of_pos _
        (by simp [matchesLeague, pySubstr, strLower, containsSub_nil])
    simp only [findLeagueId, hsel]
    cases h0 : truthyId (some c0) with
    | some i => rfl
    | none => rfl

end BuLi
